import Mathlib

set_option linter.unusedVariables false

/-
  Verification development for the PlugiPy python_service core.

  Shallow embedding of:
    - src/plugipy/python_service/future.py        (ResultFuture, FutureWrapper, RemoteFuture)
    - src/plugipy/python_service/python_service.py (executors, RPCService, remote protocol)
    - src/plugipy/python_service/filesystem_resource.py (FilesystemResource)
    - src/multiuse_plugin/util/directory_encoder.py (whitelist walk, encode_directory,
       decode_directory)

  Python values are modelled by an explicit inductive type so that truthiness
  (the Python implicit bool conversion used by the source) is expressible.
  A plugin service object is modelled as a function from a method name and an
  argument list to an outcome: a returned value or a raised exception, since
  the source invokes plugin methods through getattr by name.
-/

/-- Model of the Python values this development needs: the falsiness structure
(None, numbers, strings, booleans) is what the source code branches on. -/
inductive PyValue where
  | none
  | bool (b : Bool)
  | int (n : Int)
  | str (s : String)
  deriving DecidableEq, Repr

/-- Python implicit conversion to bool, as used by an if-statement on a value. -/
def truthy : PyValue → Bool
  | PyValue.none => false
  | PyValue.bool b => b
  | PyValue.int n => n != 0
  | PyValue.str s => !(s.isEmpty)

/-- Model of a Python exception object (identified by its message). -/
structure PyErr where
  msg : String
  deriving DecidableEq, Repr

/-- Outcome of executing a raise statement in the modelled code: either a stored
exception object is raised, or the statement was raise None, which in Python
raises a TypeError because None is not an exception. -/
inductive RaiseErr where
  | exc (e : PyErr)
  | raiseNoneTypeError
  deriving DecidableEq, Repr

/-- A plugin service object: method dispatch by name (getattr in the source)
followed by invocation, producing a value or a raised exception. -/
abbrev ServiceFn := String → List PyValue → Except PyErr PyValue

/- ===================== futures (future.py) ===================== -/

/-- ResultFuture from future.py: a future which immediately holds the result. -/
structure ResultFutureS where
  _result : PyValue
  deriving DecidableEq, Repr

/-- ResultFutureS.result returns the stored value and never raises. -/
def ResultFutureS.result (f : ResultFutureS) : PyValue := f._result

/-- FutureWrapper from future.py: wraps a pool future; its result call returns
the value the pool computed or re-raises the exception the pool captured. -/
structure FutureWrapperS where
  _future : Except PyErr PyValue
  deriving Repr

/-- FutureWrapperS.result forwards the wrapped outcome. -/
def FutureWrapperS.result (f : FutureWrapperS) : Except PyErr PyValue := f._future

/-- RemoteFuture state from future.py: id, result slot, exception slot, done flag. -/
structure RemoteFutureS where
  _result : PyValue
  _exception : Option PyErr
  _done : Bool
  deriving DecidableEq, Repr

/-- A freshly constructed RemoteFuture: result None, exception None, not done. -/
def RemoteFutureS.pending : RemoteFutureS :=
  { _result := PyValue.none, _exception := Option.none, _done := false }

/-- RemoteFuture.set_result from future.py: stores value and exception, marks done. -/
def RemoteFutureS.set_result (f : RemoteFutureS) (result : PyValue)
    (exception : Option PyErr) : RemoteFutureS :=
  { f with _result := result, _exception := exception, _done := true }

/-- RemoteFuture.result from future.py, on a completed future: the source runs
the statement if self dot result colon return it, else raise the stored
exception. The branch condition is Python truthiness of the value slot; when
the exception slot is empty the else branch executes raise None. -/
def RemoteFutureS.result (f : RemoteFutureS) : Except RaiseErr PyValue :=
  if truthy f._result then Except.ok f._result
  else
    match f._exception with
    | some e => Except.error (RaiseErr.exc e)
    | Option.none => Except.error RaiseErr.raiseNoneTypeError

/-- RemoteFuture.exception from future.py, on a completed future. -/
def RemoteFutureS.exception (f : RemoteFutureS) : Option PyErr := f._exception

/- ============== executors (python_service.py) ================== -/

/-- LocalServiceExecutor.run_task: getattr on the service then a direct call. -/
def LocalServiceExecutor.run_task (svc : ServiceFn) (fname : String)
    (args : List PyValue) : Except PyErr PyValue :=
  svc fname args

/-- LocalServiceExecutor.submit_task: the source returns
ResultFuture of run_task applied now, so the task executes synchronously inside
submit_task and an exception of the method propagates out of submit_task. -/
def LocalServiceExecutor.submit_task (svc : ServiceFn) (fname : String)
    (args : List PyValue) : Except PyErr ResultFutureS :=
  (LocalServiceExecutor.run_task svc fname args).map ResultFutureS.mk

/-- Composition used in statements: Local submit_task then result on the future. -/
def LocalServiceExecutor.submit_then_result (svc : ServiceFn) (fname : String)
    (args : List PyValue) : Except PyErr PyValue :=
  (LocalServiceExecutor.submit_task svc fname args).map ResultFutureS.result

/-- ThreadedServiceExecutor.run_task: direct call on the calling thread. -/
def ThreadedServiceExecutor.run_task (svc : ServiceFn) (fname : String)
    (args : List PyValue) : Except PyErr PyValue :=
  svc fname args

/-- ThreadedServiceExecutor.submit_task: hands the call to the single-worker
pool; submission itself never raises, the outcome (value or captured
exception) lands in the wrapped pool future. -/
def ThreadedServiceExecutor.submit_task (svc : ServiceFn) (fname : String)
    (args : List PyValue) : Except PyErr FutureWrapperS :=
  Except.ok { _future := svc fname args }

/-- Composition used in statements: Threaded submit_task then result. -/
def ThreadedServiceExecutor.submit_then_result (svc : ServiceFn) (fname : String)
    (args : List PyValue) : Except PyErr PyValue :=
  (ThreadedServiceExecutor.submit_task svc fname args).bind FutureWrapperS.result

/-- ProcessServiceExecutor.run_task: direct call on the calling thread. -/
def ProcessServiceExecutor.run_task (svc : ServiceFn) (fname : String)
    (args : List PyValue) : Except PyErr PyValue :=
  svc fname args

/-- ProcessServiceExecutor.submit_task: same contract as the threaded variant,
with the single worker being a separate process; serialization is modelled as
the identity on values. -/
def ProcessServiceExecutor.submit_task (svc : ServiceFn) (fname : String)
    (args : List PyValue) : Except PyErr FutureWrapperS :=
  Except.ok { _future := svc fname args }

/-- Composition used in statements: Process submit_task then result. -/
def ProcessServiceExecutor.submit_then_result (svc : ServiceFn) (fname : String)
    (args : List PyValue) : Except PyErr PyValue :=
  (ProcessServiceExecutor.submit_task svc fname args).bind FutureWrapperS.result

/- ============ server side RPCService (python_service.py) ============ -/

/-- RPCServiceResult: the dataclass holding result, exception and task id. -/
structure RPCServiceResult where
  result : PyValue
  exception : Option PyErr
  id : Nat
  deriving DecidableEq, Repr

/-- RPCService.call_service_func: getattr by name and invocation on the
server-side service instance. -/
def RPCService.call_service_func (svc : ServiceFn) (fname : String)
    (args : List PyValue) : Except PyErr PyValue :=
  svc fname args

/-- RPCService.call_func: used by run_task; the pickle round trip of the result
is modelled as the identity, an exception of the method propagates. -/
def RPCService.call_func (svc : ServiceFn) (fname : String)
    (args : List PyValue) : Except PyErr PyValue :=
  RPCService.call_service_func svc fname args

/-- RPCService.call_service_func_wrapper: runs the method under a try block,
returning RPCServiceResult with the value and exception None on success, and
result None with the captured exception on failure. It never raises. -/
def RPCService.call_service_func_wrapper (svc : ServiceFn) (id : Nat)
    (fname : String) (args : List PyValue) : RPCServiceResult :=
  match RPCService.call_service_func svc fname args with
  | Except.ok result => { result := result, exception := Option.none, id := id }
  | Except.error e => { result := PyValue.none, exception := some e, id := id }

/-- RemoteServiceExecutor.run_task: one synchronous round trip through
RPCService.call_func; pickle round trips are modelled as the identity. -/
def RemoteServiceExecutor.run_task (svc : ServiceFn) (fname : String)
    (args : List PyValue) : Except PyErr PyValue :=
  RPCService.call_func svc fname args

/-- RemoteServiceExecutor.submit_task, as seen by the caller: it encodes the
arguments, draws an id, stores a fresh pending RemoteFuture and sends the
fire-and-forget submit_func message; none of these steps runs the plugin
method, so submission never raises a plugin exception. -/
def RemoteServiceExecutor.submit_task_model (svc : ServiceFn) (fname : String)
    (args : List PyValue) : Except PyErr RemoteFutureS :=
  Except.ok RemoteFutureS.pending

/-- End-to-end remote path for one submitted task: the server worker runs
call_service_func_wrapper, the completed RPCServiceResult reaches the client
future through set_result, and the caller then calls result on the future. -/
def RemoteServiceExecutor.submit_then_result (svc : ServiceFn) (fname : String)
    (args : List PyValue) : Except RaiseErr PyValue :=
  let res := RPCService.call_service_func_wrapper svc 0 fname args
  (RemoteFutureS.pending.set_result res.result res.exception).result

/-- End-to-end remote path for exception on the future of one submitted task. -/
def RemoteServiceExecutor.submit_then_exception (svc : ServiceFn) (fname : String)
    (args : List PyValue) : Option PyErr :=
  let res := RPCService.call_service_func_wrapper svc 0 fname args
  (RemoteFutureS.pending.set_result res.result res.exception).exception

/- Concrete plugin services used as test inputs. -/

/-- A service whose every method echoes its first argument back. -/
def echoService : ServiceFn := fun _ args => Except.ok (args.headD PyValue.none)

/-- A service whose every method raises. -/
def raisingService : ServiceFn := fun _ _ => Except.error { msg := "boom" }

/- ===================== claims C2, C3, C4 ===================== -/

/-- C2: the claim states that RemoteFuture.result decides between value and
error by checking the error slot, so a completed task with a falsy value
(here the integer 0) and no recorded error would return that value. The code
instead branches on truthiness of the value slot: for the falsy value 0 with
an empty exception slot it executes raise None, a TypeError, and does not
return the value; a truthy value is returned as both readings agree. -/
theorem remote_future_result_truthiness_at_falsy_value :
    RemoteFutureS.result
        { _result := PyValue.int 0, _exception := Option.none, _done := true }
      = Except.error RaiseErr.raiseNoneTypeError ∧
    RemoteFutureS.result
        { _result := PyValue.none, _exception := Option.none, _done := true }
      = Except.error RaiseErr.raiseNoneTypeError ∧
    RemoteFutureS.result
        { _result := PyValue.int 1, _exception := Option.none, _done := true }
      = Except.ok (PyValue.int 1) := by
  exact ⟨rfl, rfl, rfl⟩

/-- C3: the claim states that for every executor variant, run_task and the
result of submit_task agree whenever the method returns normally. Evaluating
the code at an echo method returning the falsy value 0: the Local, Threaded
and Process variants agree with run_task, and the Remote run_task also
returns 0, but the Remote submit path raises through the truthiness check in
RemoteFuture.result (raise None, a TypeError), so the equivalence fails for
the Remote variant at falsy return values. -/
theorem executor_submit_run_divergence_at_falsy_value :
    LocalServiceExecutor.run_task echoService "echo" [PyValue.int 0]
      = Except.ok (PyValue.int 0) ∧
    LocalServiceExecutor.submit_then_result echoService "echo" [PyValue.int 0]
      = Except.ok (PyValue.int 0) ∧
    ThreadedServiceExecutor.run_task echoService "echo" [PyValue.int 0]
      = Except.ok (PyValue.int 0) ∧
    ThreadedServiceExecutor.submit_then_result echoService "echo" [PyValue.int 0]
      = Except.ok (PyValue.int 0) ∧
    ProcessServiceExecutor.run_task echoService "echo" [PyValue.int 0]
      = Except.ok (PyValue.int 0) ∧
    ProcessServiceExecutor.submit_then_result echoService "echo" [PyValue.int 0]
      = Except.ok (PyValue.int 0) ∧
    RemoteServiceExecutor.run_task echoService "echo" [PyValue.int 0]
      = Except.ok (PyValue.int 0) ∧
    RemoteServiceExecutor.submit_then_result echoService "echo" [PyValue.int 0]
      = Except.error RaiseErr.raiseNoneTypeError := by
  exact ⟨rfl, rfl, rfl, rfl, rfl, rfl, rfl, rfl⟩

/-- C4 counterexample: the claim states that for every executor variant a
plugin exception never escapes submit_task itself. For the Local variant,
submit_task runs the method synchronously and the exception propagates out of
submit_task at a concrete raising method. -/
theorem local_submit_task_raises_counterexample :
    LocalServiceExecutor.submit_task raisingService "m" []
      = Except.error { msg := "boom" } := by
  exact rfl

/-- C4 amended: for the Threaded, Process and Remote executors, submit_task
does not raise when the plugin method raises; the exception is captured in the
error slot of the future (for Remote, of the task result delivered to the
future) and surfaces only through result or exception on the future. For the
Local executor, submit_task executes the method synchronously and the
exception propagates out of submit_task immediately. -/
theorem submit_task_error_deferral_amended (svc : ServiceFn) (fname : String)
    (args : List PyValue) (e : PyErr) (h : svc fname args = Except.error e) :
    LocalServiceExecutor.submit_task svc fname args = Except.error e ∧
    ThreadedServiceExecutor.submit_task svc fname args
      = Except.ok { _future := Except.error e } ∧
    ThreadedServiceExecutor.submit_then_result svc fname args = Except.error e ∧
    ProcessServiceExecutor.submit_task svc fname args
      = Except.ok { _future := Except.error e } ∧
    ProcessServiceExecutor.submit_then_result svc fname args = Except.error e ∧
    RemoteServiceExecutor.submit_task_model svc fname args
      = Except.ok RemoteFutureS.pending ∧
    RemoteServiceExecutor.submit_then_result svc fname args
      = Except.error (RaiseErr.exc e) ∧
    RemoteServiceExecutor.submit_then_exception svc fname args = some e := by
  refine ⟨?_, ?_, ?_, ?_, ?_, rfl, ?_, ?_⟩
  · simp [LocalServiceExecutor.submit_task, LocalServiceExecutor.run_task, h,
      Except.map]
  · simp [ThreadedServiceExecutor.submit_task, h]
  · simp [ThreadedServiceExecutor.submit_then_result,
      ThreadedServiceExecutor.submit_task, FutureWrapperS.result, h, Except.bind]
  · simp [ProcessServiceExecutor.submit_task, h]
  · simp [ProcessServiceExecutor.submit_then_result,
      ProcessServiceExecutor.submit_task, FutureWrapperS.result, h, Except.bind]
  · simp [RemoteServiceExecutor.submit_then_result,
      RPCService.call_service_func_wrapper, RPCService.call_service_func, h,
      RemoteFutureS.set_result, RemoteFutureS.pending, RemoteFutureS.result, truthy]
  · simp [RemoteServiceExecutor.submit_then_exception,
      RPCService.call_service_func_wrapper, RPCService.call_service_func, h,
      RemoteFutureS.set_result, RemoteFutureS.pending, RemoteFutureS.exception]

/-- C4 witness: the amended deferral statement instantiated at the concrete
raising service. -/
theorem submit_task_error_deferral_amended_witness :
    raisingService "m" [] = Except.error { msg := "boom" } ∧
    (ThreadedServiceExecutor.submit_then_result raisingService "m" []
      = Except.error { msg := "boom" } ∧
     RemoteServiceExecutor.submit_then_exception raisingService "m" []
      = some { msg := "boom" }) := by
  have h := submit_task_error_deferral_amended raisingService "m" []
    { msg := "boom" } rfl
  exact ⟨rfl, h.2.2.1, h.2.2.2.2.2.2.2⟩

/- ========= C1: server result buffer and batched drain ========= -/

/-- A Python dict with Nat keys, modelled as an insertion-ordered association
list: assigning to an existing key replaces its value in place, assigning to a
fresh key appends at the end. -/
def dictSetNat {α : Type} (d : List (Nat × α)) (k : Nat) (v : α) :
    List (Nat × α) :=
  if (d.map Prod.fst).contains k then
    d.map (fun p => if p.1 = k then (k, v) else p)
  else
    d ++ [(k, v)]

/-- The results buffer of RPCService: task id to RPCServiceResult. -/
abbrev ResultsBuffer := List (Nat × RPCServiceResult)

/-- Mutable server state relevant to the submit protocol. -/
structure RPCServiceState where
  results_buffer : ResultsBuffer
  deriving DecidableEq, Repr

/-- RPCService.done_callback: under the condition-variable lock, stores the
completed RPCServiceResult in the results buffer keyed by its id and notifies. -/
def RPCService.done_callback (st : RPCServiceState) (res : RPCServiceResult) :
    RPCServiceState :=
  { results_buffer := dictSetNat st.results_buffer res.id res }

/-- The wait condition of RPCService.get_results: the loop while id not in
the results buffer releases the lock until the requested id is present. -/
def RPCService.get_results_enabled (st : RPCServiceState) (id : Nat) : Prop :=
  id ∈ st.results_buffer.map Prod.fst

instance (st : RPCServiceState) (id : Nat) :
    Decidable (RPCService.get_results_enabled st id) := by
  unfold RPCService.get_results_enabled
  infer_instance

/-- RPCService.get_results after the wait: under the lock it takes the whole
current buffer and replaces it with a fresh empty dict; the taken batch is
what gets pickled and returned. -/
def RPCService.get_results (st : RPCServiceState) :
    ResultsBuffer × RPCServiceState :=
  (st.results_buffer, { results_buffer := [] })

/-- One session-level event on the server buffer: a worker completion
(done_callback) or a client drain (get_results on behalf of some id). -/
inductive SrvEv where
  | add (res : RPCServiceResult)
  | drain (id : Nat)
  deriving Repr

/-- Runs a sequence of buffer events, returning the final state and the list
of batches handed out by the drains, in order. -/
def runServer (st : RPCServiceState) : List SrvEv → RPCServiceState × List ResultsBuffer
  | [] => (st, [])
  | SrvEv.add res :: evs => runServer (RPCService.done_callback st res) evs
  | SrvEv.drain _ :: evs =>
      let p := RPCService.get_results st
      let q := runServer p.2 evs
      (q.1, p.1 :: q.2)

/-- The buffer entries the done_callback events of a trace try to store. -/
def addedResults : List SrvEv → ResultsBuffer
  | [] => []
  | SrvEv.add res :: evs => (res.id, res) :: addedResults evs
  | SrvEv.drain _ :: evs => addedResults evs

/-- Storing under a key absent from the buffer appends the new entry. -/
theorem dictSetNat_append {α : Type} (d : List (Nat × α)) (k : Nat) (v : α)
    (h : k ∉ d.map Prod.fst) : dictSetNat d k v = d ++ [(k, v)] := by
  unfold dictSetNat
  have hc : (d.map Prod.fst).contains k = false := by simpa using h
  simp only [hc, Bool.false_eq_true, if_false]

/-- Conservation across a trace: if the completed task ids are pairwise
distinct and disjoint from whatever the buffer already holds, then the
concatenation of all drained batches together with the final buffer is a
permutation of the initial buffer followed by all results added during the
trace: nothing is delivered twice and nothing is lost. -/
theorem runServer_conservation (evs : List SrvEv) (st : RPCServiceState)
    (h1 : ((addedResults evs).map Prod.fst).Nodup)
    (h2 : ∀ i ∈ st.results_buffer.map Prod.fst, i ∉ (addedResults evs).map Prod.fst) :
    List.Perm ((runServer st evs).2.flatten ++ (runServer st evs).1.results_buffer)
      (st.results_buffer ++ addedResults evs) := by
  induction evs generalizing st with
  | nil => simp [runServer, addedResults]
  | cons ev evs ih =>
    cases ev with
    | add res =>
      have h1c : ((res.id, res).fst :: (addedResults evs).map Prod.fst).Nodup := by
        simpa [addedResults] using h1
      rw [List.nodup_cons] at h1c
      have hid : res.id ∉ st.results_buffer.map Prod.fst := by
        intro hmem
        have := h2 res.id hmem
        simp [addedResults] at this
      have hbuf : (RPCService.done_callback st res).results_buffer
          = st.results_buffer ++ [(res.id, res)] := by
        unfold RPCService.done_callback
        exact dictSetNat_append st.results_buffer res.id res hid
      have h2' : ∀ i ∈ (RPCService.done_callback st res).results_buffer.map Prod.fst,
          i ∉ (addedResults evs).map Prod.fst := by
        intro i hi
        rw [hbuf] at hi
        simp only [List.map_append, List.mem_append] at hi
        rcases hi with hi | hi
        · have := h2 i hi
          simp only [addedResults, List.map_cons, List.mem_cons, not_or] at this
          exact this.2
        · simp only [List.map_cons, List.map_nil, List.mem_singleton] at hi
          subst hi
          exact h1c.1
      have hrec := ih (RPCService.done_callback st res) h1c.2 h2'
      rw [hbuf, List.append_assoc, List.singleton_append] at hrec
      simpa only [runServer, addedResults] using hrec
    | drain id =>
      have h1' : ((addedResults evs).map Prod.fst).Nodup := by
        simpa [addedResults] using h1
      have hrec := ih ⟨[]⟩ h1' (by intro i hi; simp at hi)
      simp only [RPCServiceState.mk.injEq] at hrec
      simp only [runServer, RPCService.get_results, addedResults,
        List.flatten_cons, List.append_assoc]
      simp only [List.nil_append] at hrec
      exact List.Perm.append_left st.results_buffer hrec

/-- C1: the blocking drain protocol of RPCService. First, get_results on a
state whose buffer holds the awaited id (the wait condition) hands out exactly
the whole current buffer (so the requested id is in the batch and results
stored before the drain are included) and leaves the buffer empty. Second,
across every event trace with distinct completed task ids starting from an
empty buffer, the drained batches plus the final leftover buffer are a
permutation of everything the completion callbacks stored: every result
appears in exactly one batch or is still buffered, never twice and never
lost; when the trace leaves the buffer empty, the batches alone carry every
result exactly once. -/
theorem get_results_drain_exactly_once (st : RPCServiceState) (id : Nat)
    (evs : List SrvEv)
    (hwait : RPCService.get_results_enabled st id)
    (hids : ((addedResults evs).map Prod.fst).Nodup) :
    ((RPCService.get_results st).1 = st.results_buffer ∧
     (RPCService.get_results st).2.results_buffer = [] ∧
     id ∈ (RPCService.get_results st).1.map Prod.fst) ∧
    List.Perm
      ((runServer ⟨[]⟩ evs).2.flatten ++ (runServer ⟨[]⟩ evs).1.results_buffer)
      (addedResults evs) := by
  constructor
  · exact ⟨rfl, rfl, hwait⟩
  · have := runServer_conservation evs ⟨[]⟩ hids (by intro i hi; simp at hi)
    simpa using this

/-- C1 witness: the drain statement applied to a concrete state and a concrete
trace in which task 0 completes, a drain for id 0 happens, then task 1
completes and a drain for id 1 happens. -/
theorem get_results_drain_exactly_once_witness :
    RPCService.get_results_enabled
      ⟨[(0, ⟨PyValue.int 7, Option.none, 0⟩)]⟩ 0 ∧
    ((addedResults [SrvEv.add ⟨PyValue.int 7, Option.none, 0⟩, SrvEv.drain 0,
        SrvEv.add ⟨PyValue.none, some { msg := "x" }, 1⟩, SrvEv.drain 1]).map
          Prod.fst).Nodup ∧
    List.Perm
      ((runServer ⟨[]⟩ [SrvEv.add ⟨PyValue.int 7, Option.none, 0⟩, SrvEv.drain 0,
          SrvEv.add ⟨PyValue.none, some { msg := "x" }, 1⟩, SrvEv.drain 1]).2.flatten ++
        (runServer ⟨[]⟩ [SrvEv.add ⟨PyValue.int 7, Option.none, 0⟩, SrvEv.drain 0,
          SrvEv.add ⟨PyValue.none, some { msg := "x" }, 1⟩, SrvEv.drain 1]).1.results_buffer)
      (addedResults [SrvEv.add ⟨PyValue.int 7, Option.none, 0⟩, SrvEv.drain 0,
        SrvEv.add ⟨PyValue.none, some { msg := "x" }, 1⟩, SrvEv.drain 1]) := by
  refine ⟨by decide, by decide, ?_⟩
  exact (get_results_drain_exactly_once
    ⟨[(0, ⟨PyValue.int 7, Option.none, 0⟩)]⟩ 0
    [SrvEv.add ⟨PyValue.int 7, Option.none, 0⟩, SrvEv.drain 0,
     SrvEv.add ⟨PyValue.none, some { msg := "x" }, 1⟩, SrvEv.drain 1]
    (by decide) (by decide)).2

/- ========= C6: client-side id assignment ========= -/

/-- Client-side mutable state of a RemoteServiceExecutor session: the id
counter (initialized to 0 in the constructor) and the id-to-future map. -/
structure RemoteExecState where
  next_id : Nat
  future_buffer : List (Nat × RemoteFutureS)
  deriving Repr

/-- The state right after the RemoteServiceExecutor constructor. -/
def RemoteExecState.initial : RemoteExecState :=
  { next_id := 0, future_buffer := [] }

/-- RemoteServiceExecutor private helper get_next_id: returns the current
counter value and increments the counter. -/
def RemoteServiceExecutor.get_next_id (st : RemoteExecState) :
    Nat × RemoteExecState :=
  (st.next_id, { st with next_id := st.next_id + 1 })

/-- State effect of RemoteServiceExecutor.submit_task: draws the next id and
records a fresh pending RemoteFuture under it in the future buffer; the id is
also sent with the fire-and-forget submit_func message. -/
def RemoteServiceExecutor.submit_task_step (st : RemoteExecState) :
    Nat × RemoteExecState :=
  let p := RemoteServiceExecutor.get_next_id st
  (p.1, { p.2 with future_buffer := dictSetNat p.2.future_buffer p.1 RemoteFutureS.pending })

/-- The ids handed out by n successive submit_task calls from a given state. -/
def submitIds (st : RemoteExecState) : Nat → List Nat
  | 0 => []
  | n + 1 =>
      let p := RemoteServiceExecutor.submit_task_step st
      p.1 :: submitIds p.2 n

/-- The ids handed out starting at counter value k are k, k+1, ..., k+n-1. -/
theorem submitIds_eq_range' (n : Nat) (st : RemoteExecState) :
    submitIds st n = List.range' st.next_id n := by
  induction n generalizing st with
  | zero => rfl
  | succ n ih =>
    simp only [submitIds, RemoteServiceExecutor.submit_task_step,
      RemoteServiceExecutor.get_next_id, List.range'_succ]
    exact congrArg _ (ih _)

/-- C6: within one RemoteServiceExecutor session the ids assigned by n
successive submit_task calls starting from the freshly constructed state are
exactly 0, 1, ..., n-1 in order, the k-th submission (counting from 1)
receives id k-1, and no id is ever assigned twice. -/
theorem submit_task_ids_are_range (n : Nat) :
    submitIds RemoteExecState.initial n = List.range n ∧
    (submitIds RemoteExecState.initial n).Nodup ∧
    (∀ k, k < n → (submitIds RemoteExecState.initial n).getD k 0 = k) := by
  have h : submitIds RemoteExecState.initial n = List.range n := by
    rw [submitIds_eq_range', List.range_eq_range']
    rfl
  refine ⟨h, ?_, ?_⟩
  · rw [h]; exact List.nodup_range n
  · intro k hk
    rw [h, List.getD_eq_getElem _ _ (by simpa using hk)]
    simp

/-- C6 witness: the id sequence statement instantiated at three submissions. -/
theorem submit_task_ids_are_range_witness :
    submitIds RemoteExecState.initial 3 = List.range 3 ∧
    (2 < 3 ∧ (submitIds RemoteExecState.initial 3).getD 2 0 = 2) := by
  have h := submit_task_ids_are_range 3
  exact ⟨h.1, by decide, h.2.2 2 (by decide)⟩

/- ========= C5: client-side distribution of a drained batch ========= -/

/-- Python dict.pop with a single argument: removes and returns the entry for
the key, or signals KeyError (None here) when the key is absent. -/
def dictPopNat {α : Type} (d : List (Nat × α)) (k : Nat) :
    Option (α × List (Nat × α)) :=
  match d with
  | [] => Option.none
  | (k2, v) :: rest =>
      if k2 = k then some (v, rest)
      else (dictPopNat rest k).map (fun pr => (pr.1, (k2, v) :: pr.2))

/-- The distribution loop inside RemoteServiceExecutor private method
get_result: for every id and result in the drained batch it runs
future_buffer.pop(id) with no default, then set_result on the popped future.
A batch id absent from the future buffer makes pop raise KeyError. The
returned pair is the remaining future buffer and the list of futures that
were popped and completed, in batch order. -/
def RemoteServiceExecutor.distribute_results
    (fb : List (Nat × RemoteFutureS)) (results : List (Nat × RPCServiceResult)) :
    Except String (List (Nat × RemoteFutureS) × List (Nat × RemoteFutureS)) :=
  match results with
  | [] => Except.ok (fb, [])
  | (id, res) :: rest =>
      match dictPopNat fb id with
      | Option.none => Except.error ("KeyError")
      | some (future, fb2) =>
          (RemoteServiceExecutor.distribute_results fb2 rest).map
            (fun pr => (pr.1, (id, future.set_result res.result res.exception) :: pr.2))

/-- C5 counterexample: the claim states that a TaskResult whose id is not
tracked in the client future map is discarded without error. On a batch
holding id 5 and an empty future map the distribution loop instead fails with
KeyError, because the source pops with no default. -/
theorem distribute_results_unknown_id_counterexample :
    RemoteServiceExecutor.distribute_results []
        [(5, { result := PyValue.int 7, exception := Option.none, id := 5 })]
      = Except.error ("KeyError") := by
  exact rfl

/-- Popping a present key succeeds. -/
theorem dictPopNat_isSome {α : Type} (d : List (Nat × α)) (k : Nat)
    (h : k ∈ d.map Prod.fst) : (dictPopNat d k).isSome := by
  induction d with
  | nil => simp at h
  | cons p rest ih =>
    simp only [dictPopNat]
    by_cases hk : p.1 = k
    · simp [hk]
    · simp only [List.map_cons, List.mem_cons] at h
      rcases h with h | h
      · exact absurd h.symm hk
      · have := ih h
        rcases Option.isSome_iff_exists.mp this with ⟨pr, hpr⟩
        simp [hk, hpr]

/-- Popping one key keeps every other present key present. -/
theorem dictPopNat_keeps {α : Type} (d : List (Nat × α)) (k j : Nat) (v : α)
    (rest : List (Nat × α)) (hne : j ≠ k) (hpop : dictPopNat d k = some (v, rest))
    (hj : j ∈ d.map Prod.fst) : j ∈ rest.map Prod.fst := by
  induction d generalizing v rest with
  | nil => simp at hj
  | cons p tail ih =>
    obtain ⟨k2, v2⟩ := p
    simp only [dictPopNat] at hpop
    by_cases hk : k2 = k
    · simp only [hk, if_true, Option.some.injEq, Prod.mk.injEq] at hpop
      rcases hpop with ⟨hv, hrest⟩
      subst hrest
      simp only [List.map_cons, List.mem_cons] at hj
      rcases hj with hj | hj
      · exact absurd (hj.trans hk) hne
      · exact hj
    · simp only [hk, if_false] at hpop
      rcases Option.map_eq_some'.mp hpop with ⟨pr, hpr, heq⟩
      obtain ⟨v3, tail2⟩ := pr
      have hrest : rest = (k2, v2) :: tail2 := (congrArg Prod.snd heq).symm
      subst hrest
      simp only [List.map_cons, List.mem_cons] at hj ⊢
      rcases hj with hj | hj
      · exact Or.inl hj
      · exact Or.inr (ih v3 tail2 hpr hj)

/-- C5 amended: when the drained batch has pairwise distinct ids and every id
is tracked in the client future map, the distribution loop succeeds and every
TaskResult is delivered to a matching future: the popped futures carry
exactly the batch ids in batch order, each is marked done, and each holds the
value and error slots of its TaskResult. A batch id that is not tracked makes
the loop fail with KeyError (fatal), rather than being discarded silently. -/
theorem distribute_results_tracked_ids_amended
    (fb : List (Nat × RemoteFutureS)) (results : List (Nat × RPCServiceResult))
    (hsub : ∀ i ∈ results.map Prod.fst, i ∈ fb.map Prod.fst)
    (hnd : (results.map Prod.fst).Nodup) :
    ∃ fb2 comp,
      RemoteServiceExecutor.distribute_results fb results = Except.ok (fb2, comp) ∧
      comp.map Prod.fst = results.map Prod.fst ∧
      (∀ p ∈ comp, p.2._done = true) ∧
      (∀ p ∈ comp, ∃ r, (p.1, r) ∈ results ∧
        p.2._result = r.result ∧ p.2._exception = r.exception) := by
  induction results generalizing fb with
  | nil =>
    exact ⟨fb, [], rfl, rfl, by intro p hp; simp at hp, by intro p hp; simp at hp⟩
  | cons head rest ih =>
    obtain ⟨id, res⟩ := head
    have hid : id ∈ fb.map Prod.fst := hsub id (by simp)
    rcases Option.isSome_iff_exists.mp (dictPopNat_isSome fb id hid) with ⟨pr, hpr⟩
    obtain ⟨future, fb2⟩ := pr
    have hndr : (rest.map Prod.fst).Nodup := by
      simpa using hnd.of_cons
    have hnotin : id ∉ rest.map Prod.fst := by
      rw [List.map_cons, List.nodup_cons] at hnd
      exact hnd.1
    have hsub2 : ∀ i ∈ rest.map Prod.fst, i ∈ fb2.map Prod.fst := by
      intro i hi
      have hne : i ≠ id := fun h => hnotin (h ▸ hi)
      exact dictPopNat_keeps fb id i future fb2 hne hpr (hsub i (by simp [hi]))
    rcases ih fb2 hsub2 hndr with ⟨fb3, comp, hok, hids, hdone, hslots⟩
    refine ⟨fb3, (id, future.set_result res.result res.exception) :: comp, ?_, ?_, ?_, ?_⟩
    · simp only [RemoteServiceExecutor.distribute_results, hpr, hok, Except.map]
    · simpa using hids
    · intro p hp
      rcases List.mem_cons.mp hp with hp | hp
      · subst hp; rfl
      · exact hdone p hp
    · intro p hp
      rcases List.mem_cons.mp hp with hp | hp
      · subst hp
        exact ⟨res, by simp, rfl, rfl⟩
      · rcases hslots p hp with ⟨r, hr, h1, h2⟩
        exact ⟨r, by simp [hr], h1, h2⟩

/-- C5 witness: the amended distribution statement applied to a concrete
future map tracking ids 0 and 1 and a batch carrying both ids. -/
theorem distribute_results_tracked_ids_amended_witness :
    (∀ i ∈ ([(0, { result := PyValue.int 3, exception := Option.none, id := 0 }),
             (1, { result := PyValue.none, exception := some { msg := "x" }, id := 1 })] :
        List (Nat × RPCServiceResult)).map Prod.fst,
        i ∈ ([(0, RemoteFutureS.pending), (1, RemoteFutureS.pending)] :
          List (Nat × RemoteFutureS)).map Prod.fst) ∧
    ∃ fb2 comp,
      RemoteServiceExecutor.distribute_results
          [(0, RemoteFutureS.pending), (1, RemoteFutureS.pending)]
          [(0, { result := PyValue.int 3, exception := Option.none, id := 0 }),
           (1, { result := PyValue.none, exception := some { msg := "x" }, id := 1 })]
        = Except.ok (fb2, comp) ∧
      comp.map Prod.fst = [0, 1] ∧
      (∀ p ∈ comp, p.2._done = true) ∧
      (∀ p ∈ comp, ∃ r, (p.1, r) ∈
          ([(0, { result := PyValue.int 3, exception := Option.none, id := 0 }),
            (1, { result := PyValue.none, exception := some { msg := "x" }, id := 1 })] :
            List (Nat × RPCServiceResult)) ∧
        p.2._result = r.result ∧ p.2._exception = r.exception) := by
  refine ⟨by decide, ?_⟩
  exact distribute_results_tracked_ids_amended
    [(0, RemoteFutureS.pending), (1, RemoteFutureS.pending)]
    [(0, { result := PyValue.int 3, exception := Option.none, id := 0 }),
     (1, { result := PyValue.none, exception := some { msg := "x" }, id := 1 })]
    (by decide) (by decide)

/- ========= C7: FilesystemResource.access ========= -/

/-- FilesystemResource state from filesystem_resource.py: the owner node id
captured at construction, the original path, and the local path slot, which
the constructor sets to None. Node ids (uuid4 values) are modelled as strings. -/
structure FilesystemResourceS where
  _id : String
  _path : String
  _local_path : Option String
  deriving DecidableEq, Repr

/-- The class attribute filesystem_id: the uuid of the node running this
process, drawn once at import time. -/
def FilesystemResource.filesystem_id : String := "uuid-of-this-node"

/-- Outcome of one FilesystemResource.access call: the returned path, the
updated resource object, and how many remote fetches the call performed. -/
structure AccessOut where
  ret : String
  res : FilesystemResourceS
  remote_fetches : Nat
  deriving DecidableEq, Repr

/-- FilesystemResource.access from filesystem_resource.py: when the owner id
equals the current node id it stores and returns the original path; otherwise
it calls RPCService.get_dir_or_file (one remote fetch and decode, modelled by
the fetch argument), stores the returned path in the local path slot and
returns it. The body never reads the local path slot. -/
def FilesystemResource.access (fetch : String → String → String)
    (r : FilesystemResourceS) : AccessOut :=
  if r._id = FilesystemResource.filesystem_id then
    { ret := r._path, res := { r with _local_path := some r._path }, remote_fetches := 0 }
  else
    let path := fetch r._id r._path
    { ret := path, res := { r with _local_path := some path }, remote_fetches := 1 }

/-- A concrete fetch function for counterexamples and witnesses. -/
def demoFetch : String → String → String := fun _ p => "./tmp/instance_id/" ++ p

/-- A concrete remotely-owned resource. -/
def demoRemoteResource : FilesystemResourceS :=
  { _id := "uuid-of-another-node", _path := "data", _local_path := Option.none }

/-- C7 counterexample: the claim states that only the first access call on a
remotely-owned resource fetches and that every later call returns the cached
path without another remote fetch. On a concrete remotely-owned resource the
second access call performs a remote fetch again (one fetch in each call, two
in total), so the at-most-once property fails. -/
theorem filesystem_resource_refetch_counterexample :
    (FilesystemResource.access demoFetch demoRemoteResource).remote_fetches = 1 ∧
    (FilesystemResource.access demoFetch
        (FilesystemResource.access demoFetch demoRemoteResource).res).remote_fetches
      = 1 := by
  exact ⟨rfl, rfl⟩

/-- C7 amended: every access call on a remotely-owned resource performs the
remote fetch and decode again: each call does exactly one fetch, returns the
freshly fetched path, and overwrites the local path slot without ever reading
it, so repeated calls re-fetch and there is no at-most-once caching. -/
theorem filesystem_resource_access_refetches_amended
    (fetch : String → String → String) (r : FilesystemResourceS)
    (h : r._id ≠ FilesystemResource.filesystem_id) :
    (FilesystemResource.access fetch r).remote_fetches = 1 ∧
    (FilesystemResource.access fetch r).ret = fetch r._id r._path ∧
    (FilesystemResource.access fetch r).res._local_path = some (fetch r._id r._path) ∧
    (FilesystemResource.access fetch
        (FilesystemResource.access fetch r).res).remote_fetches = 1 ∧
    (FilesystemResource.access fetch
        (FilesystemResource.access fetch r).res).ret = fetch r._id r._path := by
  unfold FilesystemResource.access
  simp [h]

/-- C7 witness: the amended re-fetch statement applied to the concrete
remotely-owned resource. -/
theorem filesystem_resource_access_refetches_amended_witness :
    demoRemoteResource._id ≠ FilesystemResource.filesystem_id ∧
    ((FilesystemResource.access demoFetch demoRemoteResource).remote_fetches = 1 ∧
     (FilesystemResource.access demoFetch
        (FilesystemResource.access demoFetch demoRemoteResource).res).remote_fetches
       = 1) := by
  have h := filesystem_resource_access_refetches_amended demoFetch demoRemoteResource
    (by decide)
  exact ⟨by decide, h.1, h.2.2.2.1⟩

/- ========= C8: register_filesystem_access ========= -/

/-- A Python dict key as a runtime value: either a str or a UUID object.
Python equality between a UUID and a str is always False (the UUID class
compares equal only to other UUID instances), which is exactly the
cross-type comparison the membership check in the source performs. -/
inductive PyKeyV where
  | pyStr (s : String)
  | pyUUID (u : String)
  deriving DecidableEq, Repr

/-- Python equality on dict keys: same-type values compare by content,
a UUID never equals a str. -/
def pyKeyEq : PyKeyV → PyKeyV → Bool
  | PyKeyV.pyStr a, PyKeyV.pyStr b => a == b
  | PyKeyV.pyUUID a, PyKeyV.pyUUID b => a == b
  | _, _ => false

/-- Assignment into a Python dict under Python key equality: replaces the
entry of an equal key, otherwise appends. -/
def dictSetPy {α : Type} (d : List (PyKeyV × α)) (k : PyKeyV) (v : α) :
    List (PyKeyV × α) :=
  if (d.map Prod.fst).any (fun k2 => pyKeyEq k2 k) then
    d.map (fun p => if pyKeyEq p.1 k then (k, v) else p)
  else
    d ++ [(k, v)]

/-- Lookup in a Python dict under Python key equality. -/
def dictGetPy {α : Type} (d : List (PyKeyV × α)) (k : PyKeyV) : Option α :=
  match d with
  | [] => Option.none
  | (k2, v) :: rest => if pyKeyEq k2 k then some v else dictGetPy rest k

/-- RPCService.register_filesystem_access: the source checks the raw id,
a UUID object, for membership in dir_file_getters, whose keys are the strings
str(id); on a hit it raises RuntimeError, otherwise it stores the callback
under the key str(id). The membership test therefore compares a UUID against
str keys. str on a UUID yields its hex-and-dashes text, modelled as the
identity on the underlying string. -/
def RPCService.register_filesystem_access {α : Type}
    (dir_file_getters : List (PyKeyV × α)) (id : String) (getter : α) :
    Except String (List (PyKeyV × α)) :=
  if (dir_file_getters.map Prod.fst).any (fun k2 => pyKeyEq k2 (PyKeyV.pyUUID id)) then
    Except.error ("RuntimeError: filesystem access with this id is already existing")
  else
    Except.ok (dictSetPy dir_file_getters (PyKeyV.pyStr id) getter)

/-- C8: the claim states that registering a filesystem-access callback for an
already-registered node id raises. Evaluating the code: a first registration
for a concrete id succeeds and stores the callback under the str key; a
second registration for the same id also succeeds, because the membership
check compares the UUID object against the str keys and never matches, and it
silently overwrites the stored callback (here callback 1 is replaced by 2). -/
theorem register_filesystem_access_silent_overwrite :
    RPCService.register_filesystem_access ([] : List (PyKeyV × Nat)) "node-1" 1
      = Except.ok [(PyKeyV.pyStr "node-1", 1)] ∧
    RPCService.register_filesystem_access [(PyKeyV.pyStr "node-1", 1)] "node-1" 2
      = Except.ok [(PyKeyV.pyStr "node-1", 2)] ∧
    dictGetPy [(PyKeyV.pyStr "node-1", 2)] (PyKeyV.pyStr "node-1") = some 2 := by
  refine ⟨rfl, ?_, rfl⟩
  unfold RPCService.register_filesystem_access dictSetPy
  simp [pyKeyEq]

/- ========= C10: get_dir_or_file and the fixed scratch directory ========= -/

/-- Joining of path components as os.path.join does for relative parts. -/
def joinPath (a b : String) : String :=
  if a.isEmpty then b else a ++ "/" ++ b

/-- os.path.basename: the last slash-separated component. -/
def basename (p : String) : String :=
  ((p.splitOn "/").getLast?).getD ""

/-- Splitting a character list at every slash, keeping empty groups. -/
def splitChars : List Char → List (List Char)
  | [] => [[]]
  | c :: rest =>
      match splitChars rest with
      | [] => [[]]
      | grp :: grps => if c = '/' then [] :: grp :: grps else (c :: grp) :: grps

/-- Splitting a path into its slash-separated components. -/
def splitPath (p : String) : List String :=
  (splitChars p.data).map List.asString

/-- Joining path components back with slashes. -/
def joinComponents : List String → String
  | [] => ""
  | [c] => c
  | c :: rest => c ++ "/" ++ joinComponents rest

/-- os.path.dirname: everything before the last slash-separated component. -/
def dirname (p : String) : String :=
  joinComponents ((splitPath p).dropLast)

/-- File contents as opaque byte blobs. -/
abbrev Bytes := List Nat

/-- The in-memory zip archive produced by encode_directory and consumed by
decode_directory: archive-relative file paths with their contents. -/
structure EncodedDirectory where
  entries : List (String × Bytes)
  deriving DecidableEq, Repr

/-- The file system of the node performing a decode: absolute-ish file paths
with their contents, as an insertion-ordered dict. -/
abbrev ServerFiles := List (String × Bytes)

/-- Assignment into a string-keyed Python dict. -/
def dictSetStr {α : Type} (d : List (String × α)) (k : String) (v : α) :
    List (String × α) :=
  if (d.map Prod.fst).contains k then
    d.map (fun p => if p.1 = k then (k, v) else p)
  else
    d ++ [(k, v)]

/-- Whether a path lies strictly inside a directory: the directory name
followed by a slash is a prefix of the path. -/
def underDir (dir p : String) : Bool :=
  (dir.data ++ ['/']).isPrefixOf p.data

/-- Extraction loop of zipfile extractall: writes every archive entry to
target slash relative-path, overwriting existing files. -/
def writeEntries (fs : ServerFiles) (target : String) :
    List (String × Bytes) → ServerFiles
  | [] => fs
  | (rel, c) :: rest => writeEntries (dictSetStr fs (joinPath target rel) c) target rest

/-- decode_directory from directory_encoder.py: when clean_target_dir is set
and the target directory exists it is removed with its whole content
(shutil.rmtree), then the directory is recreated and the archive entries are
extracted into it. -/
def decode_directory (zip_buffer : EncodedDirectory) (target_directory : String)
    (clean_target_dir : Bool) (fs : ServerFiles) : ServerFiles :=
  let fs1 := if clean_target_dir then
      fs.filter (fun p => !(underDir target_directory p.1))
    else fs
  writeEntries fs1 target_directory zip_buffer.entries

/-- The scratch directory of RPCService.get_dir_or_file: the folder id is the
string literal instance_id, so the target is one fixed path for every call. -/
def RPCService.instance_target_dir : String := "./tmp/" ++ "instance_id"

/-- RPCService.get_dir_or_file: looks up the filesystem callback under
str(id), pulls and unpickles the encoded directory for the requested path,
decodes it into the fixed scratch directory with clean_target_dir set, and
returns the path of the requested object inside the scratch directory. -/
def RPCService.get_dir_or_file
    (dir_file_getters : List (PyKeyV × (String → EncodedDirectory)))
    (id : String) (path : String) (fs : ServerFiles) :
    Except String (String × ServerFiles) :=
  match dictGetPy dir_file_getters (PyKeyV.pyStr id) with
  | Option.none => Except.error ("KeyError")
  | some getter =>
      let encoded_directory := getter path
      let fs2 := decode_directory encoded_directory RPCService.instance_target_dir true fs
      Except.ok (joinPath RPCService.instance_target_dir (basename path), fs2)

/-- The files of a file system that lie inside a directory. -/
def filesUnder (dir : String) (fs : ServerFiles) : ServerFiles :=
  fs.filter (fun p => underDir dir p.1)

/-- A path joined under a nonempty directory lies inside that directory. -/
theorem underDir_joinPath (t rel : String) (ht : t.isEmpty = false) :
    underDir t (joinPath t rel) = true := by
  unfold underDir joinPath
  rw [ht]
  simp only [Bool.false_eq_true, if_false, String.data_append]
  have hdata : t.data ++ ("/" : String).data ++ rel.data
      = (t.data ++ ['/']) ++ rel.data := by simp [List.append_assoc]
  rw [hdata]
  simp [List.isPrefixOf_iff_prefix]

/-- Setting a key that no entry of a front segment carries distributes over
the append and leaves the front segment unchanged. -/
theorem map_ite_id {α : Type} (b : List (String × α)) (k : String) (v : α)
    (hb : ∀ p ∈ b, p.1 ≠ k) :
    b.map (fun p => if p.1 = k then (k, v) else p) = b := by
  induction b with
  | nil => rfl
  | cons q rest ih =>
    simp only [List.map_cons]
    rw [if_neg (hb q (by simp))]
    rw [ih (fun p hp => hb p (by simp [hp]))]

/-- Setting a key that no entry of a front segment carries distributes over
the append and leaves the front segment unchanged. -/
theorem dictSetStr_append {α : Type} (base acc : List (String × α)) (k : String)
    (v : α) (h : ∀ p ∈ base, p.1 ≠ k) :
    dictSetStr (base ++ acc) k v = base ++ dictSetStr acc k v := by
  have hbase : k ∉ base.map Prod.fst := by
    intro hk
    rcases List.mem_map.mp hk with ⟨p, hp, hpk⟩
    exact h p hp hpk
  unfold dictSetStr
  rw [List.map_append]
  by_cases hacc : k ∈ acc.map Prod.fst
  · have h1 : (base.map Prod.fst ++ acc.map Prod.fst).contains k = true := by
      have hm : k ∈ base.map Prod.fst ++ acc.map Prod.fst :=
        List.mem_append_right _ hacc
      simpa using hm
    have h2 : (acc.map Prod.fst).contains k = true := by simpa using hacc
    rw [if_pos h1, if_pos h2, List.map_append, map_ite_id base k v h]
  · have h1 : ¬ ((base.map Prod.fst ++ acc.map Prod.fst).contains k = true) := by
      intro hk
      have hm : k ∈ base.map Prod.fst ++ acc.map Prod.fst := by simpa using hk
      rcases List.mem_append.mp hm with hm2 | hm2
      · exact hbase hm2
      · exact hacc hm2
    have h2 : ¬ ((acc.map Prod.fst).contains k = true) := by
      intro hk
      exact hacc (by simpa using hk)
    rw [if_neg h1, if_neg h2, List.append_assoc]

/-- Each entry of a dict after an assignment is an old entry or the new one. -/
theorem mem_dictSetStr {α : Type} (acc : List (String × α)) (k : String) (v : α)
    (p : String × α) (hp : p ∈ dictSetStr acc k v) : p ∈ acc ∨ p = (k, v) := by
  unfold dictSetStr at hp
  by_cases hc : (acc.map Prod.fst).contains k = true
  · rw [if_pos hc] at hp
    rcases List.mem_map.mp hp with ⟨q, hq, hqe⟩
    by_cases hqk : q.1 = k
    · right
      rw [← hqe, if_pos hqk]
    · left
      rw [← hqe, if_neg hqk]
      exact hq
  · rw [if_neg hc] at hp
    rcases List.mem_append.mp hp with hmem | hmem
    · exact Or.inl hmem
    · right
      simpa using hmem

/-- Extraction on top of files outside the target directory appends: the old
outside files stay in front, untouched, and the written entries accumulate
behind them. -/
theorem writeEntries_append (t : String) (ht : t.isEmpty = false)
    (es : List (String × Bytes)) (base acc : ServerFiles)
    (hbase : ∀ p ∈ base, underDir t p.1 = false) :
    writeEntries (base ++ acc) t es = base ++ writeEntries acc t es := by
  induction es generalizing acc with
  | nil => rfl
  | cons e rest ih =>
    obtain ⟨rel, c⟩ := e
    simp only [writeEntries]
    rw [dictSetStr_append base acc (joinPath t rel) c (by
      intro p hp hpk
      have h1 := hbase p hp
      rw [hpk, underDir_joinPath t rel ht] at h1
      simp at h1)]
    exact ih (dictSetStr acc (joinPath t rel) c)

/-- Every file present after extraction into the target, starting from files
inside the target, lies inside the target. -/
theorem writeEntries_under (t : String) (ht : t.isEmpty = false)
    (es : List (String × Bytes)) (acc : ServerFiles)
    (hacc : ∀ p ∈ acc, underDir t p.1 = true) :
    ∀ p ∈ writeEntries acc t es, underDir t p.1 = true := by
  induction es generalizing acc with
  | nil => exact hacc
  | cons e rest ih =>
    obtain ⟨rel, c⟩ := e
    simp only [writeEntries]
    apply ih
    intro p hp
    rcases mem_dictSetStr acc (joinPath t rel) c p hp with hmem | hmem
    · exact hacc p hmem
    · subst hmem
      exact underDir_joinPath t rel ht

/-- Frame property of decode_directory with clean_target_dir set: whatever
the file system held before, the files inside the target directory afterwards
are exactly the extracted archive entries. -/
theorem filesUnder_decode (enc : EncodedDirectory) (t : String)
    (ht : t.isEmpty = false) (fs : ServerFiles) :
    filesUnder t (decode_directory enc t true fs) = writeEntries [] t enc.entries := by
  unfold decode_directory
  simp only [if_true]
  have hbase : ∀ p ∈ fs.filter (fun p => !(underDir t p.1)), underDir t p.1 = false := by
    intro p hp
    have := List.of_mem_filter hp
    simpa using this
  have hsplit : writeEntries (fs.filter (fun p => !(underDir t p.1))) t enc.entries
      = fs.filter (fun p => !(underDir t p.1)) ++ writeEntries [] t enc.entries := by
    have := writeEntries_append t ht enc.entries (fs.filter (fun p => !(underDir t p.1)))
      [] hbase
    simpa using this
  rw [hsplit]
  unfold filesUnder
  rw [List.filter_append]
  have hleft : (fs.filter (fun p => !(underDir t p.1))).filter
      (fun p => underDir t p.1) = [] := by
    rw [List.filter_eq_nil_iff]
    intro p hp
    simp [hbase p hp]
  have hright : (writeEntries [] t enc.entries).filter (fun p => underDir t p.1)
      = writeEntries [] t enc.entries := by
    rw [List.filter_eq_self]
    intro p hp
    exact writeEntries_under t ht enc.entries [] (by intro q hq; simp at hq) p hp
  rw [hleft, hright, List.nil_append]

/-- C10: every remote resolution performed by RPCService.get_dir_or_file
returns a path inside the one fixed scratch directory tmp/instance_id, no
matter which node id or which path is being resolved, and decodes into that
scratch directory after wiping it. Consequently, after a second resolution
the scratch directory holds exactly the decode of the second resource: the
decoded content behind the path returned by the first resolution has been
replaced. -/
theorem get_dir_or_file_fixed_scratch_dir
    (getters : List (PyKeyV × (String → EncodedDirectory)))
    (id1 id2 p1 p2 : String) (g1 g2 : String → EncodedDirectory) (fs : ServerFiles)
    (h1 : dictGetPy getters (PyKeyV.pyStr id1) = some g1)
    (h2 : dictGetPy getters (PyKeyV.pyStr id2) = some g2) :
    ∃ fs1 fs2,
      RPCService.get_dir_or_file getters id1 p1 fs
        = Except.ok (joinPath RPCService.instance_target_dir (basename p1), fs1) ∧
      RPCService.get_dir_or_file getters id2 p2 fs1
        = Except.ok (joinPath RPCService.instance_target_dir (basename p2), fs2) ∧
      filesUnder RPCService.instance_target_dir fs1
        = writeEntries [] RPCService.instance_target_dir (g1 p1).entries ∧
      filesUnder RPCService.instance_target_dir fs2
        = writeEntries [] RPCService.instance_target_dir (g2 p2).entries := by
  refine ⟨decode_directory (g1 p1) RPCService.instance_target_dir true fs,
    decode_directory (g2 p2) RPCService.instance_target_dir true
      (decode_directory (g1 p1) RPCService.instance_target_dir true fs),
    ?_, ?_, ?_, ?_⟩
  · simp [RPCService.get_dir_or_file, h1]
  · simp [RPCService.get_dir_or_file, h2]
  · exact filesUnder_decode (g1 p1) RPCService.instance_target_dir (by decide) fs
  · exact filesUnder_decode (g2 p2) RPCService.instance_target_dir (by decide) _

/-- A concrete filesystem callback serving one file f.txt. -/
def demoGetter1 : String → EncodedDirectory := fun _ => ⟨[("f.txt", [1])]⟩

/-- A concrete filesystem callback serving one file g.txt. -/
def demoGetter2 : String → EncodedDirectory := fun _ => ⟨[("g.txt", [2])]⟩

/-- A concrete callback registry holding the two demo callbacks. -/
def demoGetters : List (PyKeyV × (String → EncodedDirectory)) :=
  [(PyKeyV.pyStr ("node-a"), demoGetter1), (PyKeyV.pyStr ("node-b"), demoGetter2)]

/-- C10 witness: the fixed-scratch-directory statement applied to concrete
callbacks for two different owner nodes and two different paths. -/
theorem get_dir_or_file_fixed_scratch_dir_witness :
    dictGetPy demoGetters (PyKeyV.pyStr ("node-a")) = some demoGetter1 ∧
    dictGetPy demoGetters (PyKeyV.pyStr ("node-b")) = some demoGetter2 ∧
    ∃ fs1 fs2,
      RPCService.get_dir_or_file demoGetters "node-a" "x/f.txt" []
        = Except.ok (joinPath RPCService.instance_target_dir (basename "x/f.txt"), fs1) ∧
      RPCService.get_dir_or_file demoGetters "node-b" "y/g.txt" fs1
        = Except.ok (joinPath RPCService.instance_target_dir (basename "y/g.txt"), fs2) ∧
      filesUnder RPCService.instance_target_dir fs1
        = writeEntries [] RPCService.instance_target_dir (demoGetter1 "x/f.txt").entries ∧
      filesUnder RPCService.instance_target_dir fs2
        = writeEntries [] RPCService.instance_target_dir (demoGetter2 "y/g.txt").entries := by
  refine ⟨rfl, rfl, ?_⟩
  exact get_dir_or_file_fixed_scratch_dir demoGetters "node-a" "node-b" "x/f.txt"
    "y/g.txt" demoGetter1 demoGetter2 [] rfl rfl

/- ========= C9: directory_encoder whitelist walk ========= -/

/-- A directory tree entry: a file or a directory with its child entries, in
listing order. -/
inductive FSEntry where
  | file (name : String)
  | dir (name : String) (children : List FSEntry)
  deriving Repr

/-- Name of an entry. -/
def FSEntry.name : FSEntry → String
  | FSEntry.file n => n
  | FSEntry.dir n _ => n

/-- os.path.isdir for an entry. -/
def FSEntry.isDir : FSEntry → Bool
  | FSEntry.file _ => false
  | FSEntry.dir _ _ => true

/-- The clean_path helper of directory_encoder.py on relative inputs: as its
comment says, it removes unnecessary dot and empty components. -/
def cleanPath (p : String) : String :=
  joinComponents ((splitPath p).filter (fun c => !(c == "") && !(c == ".")))

/-- The is_subpath helper of directory_encoder.py: startswith on the raw path
text together with a strict length increase. -/
def isSubpath (base_path subpath : String) : Bool :=
  base_path.data.isPrefixOf subpath.data && decide (base_path.length < subpath.length)

/-- The parent-extension loop of whitelist_walk: dirname iterated while the
parent path is nonempty, with fuel bounded by the path length. -/
def parentChainAux : Nat → String → List String
  | 0, _ => []
  | n + 1, p =>
      let parent_path := dirname p
      if parent_path.length = 0 then []
      else parent_path :: parentChainAux n parent_path

/-- All proper ancestor paths of a whitelist path. -/
def parentChain (p : String) : List String :=
  parentChainAux p.length p

/-- The whitelist preprocessing of whitelist_walk: paths are cleaned and the
set is extended by every parent prefix of every whitelist path, so that the
walk can descend towards the whitelisted entries. Sets are modelled as lists
with membership by contains. -/
def preprocessWhitelist (wl : List String) : List String :=
  wl.map cleanPath ++ (wl.map cleanPath).flatMap parentChain

/-- The preprocessing guarded by Python truthiness: an absent or empty
whitelist is left untouched. -/
def preprocessOpt (whitelist : Option (List String)) : Option (List String) :=
  match whitelist with
  | Option.none => Option.none
  | some l => if l.isEmpty then some l else some (preprocessWhitelist l)

/-- The whitelist admission test inside the walk loop: the source skips an
entry when the whitelist is truthy and the entry path is not in it. -/
def wlKeeps (wl : Option (List String)) (entry_root_path : String) : Bool :=
  match wl with
  | Option.none => true
  | some l => if l.isEmpty then true else l.contains entry_root_path

/-- The ignore test inside the walk loop: an entry name matching at least one
ignore pattern is skipped. A compiled regex is modelled as what it defines,
a Boolean predicate on names. -/
def nameIgnored (ign : List (String → Bool)) (entry_name : String) : Bool :=
  ign.any (fun pat => pat entry_name)

/-- Combined admission of one entry at one level of the walk. -/
def keepEntry (wl : Option (List String)) (ign : List (String → Bool))
    (rel : String) (e : FSEntry) : Bool :=
  wlKeeps wl (joinPath rel e.name) && !(nameIgnored ign e.name)

/-- The whitelist filtering done before descending into a sub-directory: only
paths strictly below the directory survive; an empty remainder becomes None,
which admits everything below. -/
def filterWhitelist (wl : Option (List String)) (dirpath : String) :
    Option (List String) :=
  match wl with
  | Option.none => Option.none
  | some l =>
      if l.isEmpty then Option.none
      else
        if (l.filter (fun path => isSubpath dirpath path)).isEmpty then Option.none
        else some (l.filter (fun path => isSubpath dirpath path))

/-- The filenames yielded for one directory level: admitted non-directory
entries, in listing order. -/
def levelFiles (ign : List (String → Bool)) (wl : Option (List String))
    (rel : String) (children : List FSEntry) : List String :=
  (children.filter (fun e => !(e.isDir) && keepEntry wl ign rel e)).map FSEntry.name

/-- The recursive body of whitelist_walk: admitted sub-directories are walked
in listing order, each with its filtered whitelist; each walked directory
contributes its relative path with its admitted filenames. -/
def whitelist_walk_children (ign : List (String → Bool))
    (wl : Option (List String)) (rel : String) :
    List FSEntry → List (String × List String)
  | [] => []
  | FSEntry.file _ :: rest => whitelist_walk_children ign wl rel rest
  | FSEntry.dir n cs :: rest =>
      (if keepEntry wl ign rel (FSEntry.dir n cs) then
        (joinPath rel n,
            levelFiles ign (filterWhitelist wl (joinPath rel n)) (joinPath rel n) cs) ::
          whitelist_walk_children ign (filterWhitelist wl (joinPath rel n))
            (joinPath rel n) cs
      else [])
      ++ whitelist_walk_children ign wl rel rest

/-- whitelist_walk of directory_encoder.py over a tree given as the child list
of the root directory: the root level is yielded first, then the admitted
sub-directories depth first. -/
def whitelist_walk (tree : List FSEntry) (whitelist : Option (List String))
    (ignore_patterns : List (String → Bool)) : List (String × List String) :=
  ("", levelFiles ignore_patterns (preprocessOpt whitelist) "" tree) ::
    whitelist_walk_children ignore_patterns (preprocessOpt whitelist) "" tree

/-- The filenames of one level with no filtering, as os.walk reports them. -/
def allLevelFiles (children : List FSEntry) : List String :=
  (children.filter (fun e => !(e.isDir))).map FSEntry.name

/-- os.walk over the sub-directories of a level, depth first, no filtering. -/
def os_walk_children (rel : String) : List FSEntry → List (String × List String)
  | [] => []
  | FSEntry.file _ :: rest => os_walk_children rel rest
  | FSEntry.dir n cs :: rest =>
      (joinPath rel n, allLevelFiles cs) ::
        (os_walk_children (joinPath rel n) cs ++ os_walk_children rel rest)

/-- os.walk over a tree given as the child list of the root. -/
def os_walk (tree : List FSEntry) : List (String × List String) :=
  ("", allLevelFiles tree) :: os_walk_children "" tree

/-- The zip-writing loop of encode_directory: every yielded filename becomes
an archive entry under its directory path relative to the source directory. -/
def archiveOf (walked : List (String × List String)) : List String :=
  walked.flatMap (fun fr => fr.2.map (fun filename => joinPath fr.1 filename))

/-- Python truthiness of the whitelist argument. -/
def wlTruthy : Option (List String) → Bool
  | Option.none => false
  | some l => !(l.isEmpty)

/-- encode_directory from directory_encoder.py, as the list of archive paths
it writes: it walks with whitelist_walk when a whitelist or ignore patterns
are given and with os.walk otherwise, writing every yielded file. -/
def encode_directory (tree : List FSEntry) (whitelist : Option (List String))
    (ignore_patterns : List (String → Bool)) : List String :=
  archiveOf
    (if wlTruthy whitelist || !(ignore_patterns.isEmpty) then
      whitelist_walk tree whitelist ignore_patterns
    else os_walk tree)

/-- Specification-side archive of all files strictly below the directories of
a level, depth first, matching the walk order. -/
def archiveDirs (rel : String) : List FSEntry → List String
  | [] => []
  | FSEntry.file _ :: rest => archiveDirs rel rest
  | FSEntry.dir n cs :: rest =>
      ((cs.filter (fun e => !(e.isDir))).map FSEntry.name).map
          (fun filename => joinPath (joinPath rel n) filename)
        ++ archiveDirs (joinPath rel n) cs ++ archiveDirs rel rest

/-- Specification-side archive of a whole subtree rooted at a relative path. -/
def archiveAll (rel : String) (children : List FSEntry) : List String :=
  ((children.filter (fun e => !(e.isDir))).map FSEntry.name).map
      (fun filename => joinPath rel filename)
    ++ archiveDirs rel children

/-- Unfolding of the archive writer over one walked directory. -/
theorem archiveOf_cons (x : String × List String) (l : List (String × List String)) :
    archiveOf (x :: l) = x.2.map (fun filename => joinPath x.1 filename) ++ archiveOf l := by
  simp [archiveOf]

/-- The archive writer distributes over append. -/
theorem archiveOf_append (l1 l2 : List (String × List String)) :
    archiveOf (l1 ++ l2) = archiveOf l1 ++ archiveOf l2 := by
  simp [archiveOf]

/-- With no whitelist and no ignore patterns, the level files are all files. -/
theorem levelFiles_none (rel : String) (l : List FSEntry) :
    levelFiles [] Option.none rel l
      = (l.filter (fun e => !(e.isDir))).map FSEntry.name := by
  unfold levelFiles
  congr 1
  apply List.filter_congr
  intro e he
  simp [keepEntry, wlKeeps, nameIgnored]

/-- With no whitelist and no ignore patterns, the walk archives every file of
every subtree, depth first, files before sub-directories at each level. -/
theorem archiveOf_walk_none (rel : String) (l : List FSEntry) :
    archiveOf (whitelist_walk_children [] Option.none rel l) = archiveDirs rel l := by
  match l with
  | [] => simp [whitelist_walk_children, archiveDirs, archiveOf]
  | FSEntry.file n :: rest =>
      simp only [whitelist_walk_children, archiveDirs]
      exact archiveOf_walk_none rel rest
  | FSEntry.dir n cs :: rest =>
      have hkeep : keepEntry Option.none [] rel (FSEntry.dir n cs) = true := by
        simp [keepEntry, wlKeeps, nameIgnored]
      have hfw : filterWhitelist Option.none (joinPath rel n) = Option.none := rfl
      simp only [whitelist_walk_children, hkeep, if_true, hfw]
      rw [archiveOf_append, archiveOf_cons]
      rw [levelFiles_none, archiveOf_walk_none (joinPath rel n) cs,
        archiveOf_walk_none rel rest]
      simp only [archiveDirs, List.append_assoc]

/-- C9: the most-specific-wins and ignore-subtree contract of
encode_directory. For every pair of subtree listings B and Cs, take the tree
whose root holds one directory a containing the directories b (children B)
and c (children Cs), and the whitelist containing both a and the more
specific nested path a/b. First conjunct: with no ignore patterns the archive
consists of exactly the files of the subtree below a/b, so a/b is included
while the non-whitelisted sibling a/c contributes nothing. Second conjunct:
with an ignore pattern matching the name b, the entry a/b is excluded
together with its entire subtree even though a/b is whitelisted, and the
archive is empty. -/
theorem encode_directory_most_specific_and_ignore (B Cs : List FSEntry) :
    encode_directory [FSEntry.dir "a" [FSEntry.dir "b" B, FSEntry.dir "c" Cs]]
        (some ["a", "a/b"]) [] = archiveAll "a/b" B ∧
    encode_directory [FSEntry.dir "a" [FSEntry.dir "b" B, FSEntry.dir "c" Cs]]
        (some ["a", "a/b"]) [fun n => n == "b"] = [] := by
  have hpp : preprocessOpt (some ["a", "a/b"]) = some ["a", "a/b", "a"] := by decide
  have hj1 : joinPath "" "a" = "a" := by decide
  have hj2 : joinPath "a" "b" = "a/b" := by decide
  have hj3 : joinPath "a" "c" = "a/c" := by decide
  have hfw1 : filterWhitelist (some ["a", "a/b", "a"]) "a" = some ["a/b"] := by decide
  have hfw2 : filterWhitelist (some ["a/b"]) "a/b" = Option.none := by decide
  constructor
  · unfold encode_directory
    rw [if_pos (by decide)]
    unfold whitelist_walk
    rw [hpp, archiveOf_cons]
    have hroot : levelFiles [] (some ["a", "a/b", "a"]) ""
        [FSEntry.dir "a" [FSEntry.dir "b" B, FSEntry.dir "c" Cs]] = [] := by
      simp [levelFiles, FSEntry.isDir]
    rw [hroot]
    simp only [List.map_nil, List.nil_append]
    have hka : ∀ xs : List FSEntry,
        keepEntry (some ["a", "a/b", "a"]) [] "" (FSEntry.dir "a" xs) = true := by
      intro xs; simp only [keepEntry, FSEntry.name]; decide
    have hkb : ∀ xs : List FSEntry,
        keepEntry (some ["a/b"]) [] "a" (FSEntry.dir "b" xs) = true := by
      intro xs; simp only [keepEntry, FSEntry.name]; decide
    have hkc : ∀ xs : List FSEntry,
        keepEntry (some ["a/b"]) [] "a" (FSEntry.dir "c" xs) = false := by
      intro xs; simp only [keepEntry, FSEntry.name]; decide
    have hlevelA : levelFiles [] (some ["a/b"]) "a"
        [FSEntry.dir "b" B, FSEntry.dir "c" Cs] = [] := by
      simp [levelFiles, FSEntry.isDir]
    simp only [whitelist_walk_children, hj1, hj2, hj3, hfw1, hfw2, hka, hkb, hkc,
      hlevelA, if_true, Bool.false_eq_true, if_false, List.append_nil,
      List.nil_append]
    rw [archiveOf_cons, archiveOf_cons]
    rw [levelFiles_none, archiveOf_walk_none "a/b" B]
    simp only [List.map_nil, List.nil_append, archiveAll]
  · unfold encode_directory
    rw [if_pos (by decide)]
    unfold whitelist_walk
    rw [hpp, archiveOf_cons]
    have hroot2 : levelFiles [fun n => n == "b"] (some ["a", "a/b", "a"]) ""
        [FSEntry.dir "a" [FSEntry.dir "b" B, FSEntry.dir "c" Cs]] = [] := by
      simp [levelFiles, FSEntry.isDir]
    rw [hroot2]
    simp only [List.map_nil, List.nil_append]
    have hka2 : ∀ xs : List FSEntry,
        keepEntry (some ["a", "a/b", "a"]) [fun n => n == "b"] ""
          (FSEntry.dir "a" xs) = true := by
      intro xs; simp only [keepEntry, FSEntry.name]; decide
    have hkb2 : ∀ xs : List FSEntry,
        keepEntry (some ["a/b"]) [fun n => n == "b"] "a"
          (FSEntry.dir "b" xs) = false := by
      intro xs; simp only [keepEntry, FSEntry.name]; decide
    have hkc2 : ∀ xs : List FSEntry,
        keepEntry (some ["a/b"]) [fun n => n == "b"] "a"
          (FSEntry.dir "c" xs) = false := by
      intro xs; simp only [keepEntry, FSEntry.name]; decide
    have hlevelA2 : levelFiles [fun n => n == "b"] (some ["a/b"]) "a"
        [FSEntry.dir "b" B, FSEntry.dir "c" Cs] = [] := by
      simp [levelFiles, FSEntry.isDir]
    simp only [whitelist_walk_children, hj1, hj2, hj3, hfw1, hfw2, hka2, hkb2, hkc2,
      hlevelA2, if_true, Bool.false_eq_true, if_false, List.append_nil,
      List.nil_append]
    rw [archiveOf_cons]
    simp [archiveOf]
